import Mathlib

/-!
Shallow embedding of `src/main.py`, a Telegram front-end that orchestrates
YouTube downloads through an external media library.  Pure computations
(string handling, percent parsing, progress rendering, extension dispatch,
config backfill) are translated directly; stateful handlers are modelled as
explicit state-passing functions over a session table and a file-state cell,
with the external collaborators (media library, chat platform, file system)
supplied as explicit oracle inputs.
-/

namespace YTBot

/-! ## Python string primitives used by `main.py` -/

/-- The whitespace characters removed by Python `str.strip()` (ASCII part). -/
def isPySpace (c : Char) : Bool :=
  c = ' ' || c = '\t' || c = '\n' || c = '\x0b' || c = '\x0c' || c = '\r'

/-- `str.strip()` on a character list: drop whitespace from both ends. -/
def pyStripList (l : List Char) : List Char :=
  ((l.dropWhile isPySpace).reverse.dropWhile isPySpace).reverse

/-- Python `str.strip()`. -/
def pyStrip (s : String) : String :=
  String.mk (pyStripList s.toList)

/-- `startsWithList p l` decides whether `p` is a prefix of `l`
(character-exact, as Python `str.startswith`). -/
def startsWithList : List Char → List Char → Bool
  | [], _ => true
  | _ :: _, [] => false
  | p :: ps, c :: cs => if p = c then startsWithList ps cs else false

/-- Python `sub in s` substring membership on character lists:
`containsList p l` is true when `p` occurs contiguously inside `l`. -/
def containsList (p : List Char) : List Char → Bool
  | [] => p.isEmpty
  | c :: cs => startsWithList p (c :: cs) || containsList p cs

/-- Python `sub in s` on strings. -/
def containsStr (s sub : String) : Bool :=
  containsList sub.toList s.toList

/-- Python `s.startswith(pre)`. -/
def pyStartsWith (s pre : String) : Bool :=
  startsWithList pre.toList s.toList

/-- Python `s.endswith(suf)`: a suffix of `s` is a prefix of its reversal. -/
def pyEndsWith (s suf : String) : Bool :=
  startsWithList suf.toList.reverse s.toList.reverse

/-- Python `s.split(sep)` for a one-character separator, on character lists.
`splitChar sep [] = [[]]`, matching `''.split(sep) == ['']`. -/
def splitChar (sep : Char) : List Char → List (List Char)
  | [] => [[]]
  | c :: cs =>
    let r := splitChar sep cs
    if c = sep then [] :: r
    else
      match r with
      | [] => [[c]]
      | h :: t => (c :: h) :: t

/-- `filename.rsplit('.', 1)[0]`: the characters before the last dot,
or the whole list when no dot occurs. -/
def dropAfterLastDot (l : List Char) : List Char :=
  match l.reverse.dropWhile (fun c => c ≠ '.') with
  | [] => l
  | _ :: rest => rest.reverse

/-- `filename.rsplit('.', 1)[0] + '.mp3'` (line 356 of `main.py`). -/
def mp3Sibling (filename : String) : String :=
  String.mk (dropAfterLastDot filename.toList ++ ".mp3".toList)

/-! ## Python `float(str)` model

`ProgressHook.__call__` computes `float(percent.replace('%', ''))` inside a
bare `try`.  We model Python float parsing over exact rationals: stripping of
surrounding whitespace, an optional sign, the keywords `inf`/`infinity`/`nan`,
and the decimal grammar with underscores allowed strictly between digits.
(Exact rationals stand in for IEEE doubles; no theorem below depends on
rounding, only on parse success/failure.) -/

/-- `PyFloat` classifies the result of a successful Python float parse. -/
inductive PyFloat
  | finite (q : ℚ)
  | inf
  | nan
deriving DecidableEq

/-- Consume a run of digits that may contain underscores strictly between
digits.  Returns the accumulated value, the number of digits consumed, and
the unconsumed remainder; an ill-placed underscore is left unconsumed, so
the caller's leftover check rejects it as Python does. -/
def digitsRest (acc k : Nat) : List Char → Nat × Nat × List Char
  | [] => (acc, k, [])
  | c :: rest =>
    if c.isDigit then digitsRest (acc * 10 + (c.toNat - 48)) (k + 1) rest
    else if c = '_' then
      match rest with
      | d :: rest2 =>
        if d.isDigit then digitsRest (acc * 10 + (d.toNat - 48)) (k + 2) rest2
        else (acc, k, c :: rest)
      | [] => (acc, k, [c])
    else (acc, k, c :: rest)

/-- Parse an optional exponent part and require the input to be exhausted. -/
def parseExp (mant : ℚ) : List Char → Option ℚ
  | [] => some mant
  | c :: r1 =>
    if c = 'e' || c = 'E' then
      let sr : Bool × List Char :=
        match r1 with
        | '+' :: r => (false, r)
        | '-' :: r => (true, r)
        | r => (false, r)
      let er := digitsRest 0 0 sr.2
      if er.2.1 = 0 || er.2.2 ≠ [] then none
      else some (if sr.1 then mant / (10 : ℚ) ^ er.1 else mant * (10 : ℚ) ^ er.1)
    else none

/-- Parse a finite decimal literal `[digits] [. [digits]] [exp]`,
requiring at least one digit in the integer or fractional part. -/
def parseFinite (l : List Char) : Option ℚ :=
  let ir := digitsRest 0 0 l
  match ir.2.2 with
  | '.' :: r2 =>
    let fr := digitsRest 0 0 r2
    if ir.2.1 = 0 ∧ fr.2.1 = 0 then none
    else parseExp ((ir.1 : ℚ) + (fr.1 : ℚ) / (10 : ℚ) ^ fr.2.1) fr.2.2
  | _ =>
    if ir.2.1 = 0 then none else parseExp (ir.1 : ℚ) ir.2.2

/-- Python `float(s)`: `none` when `float` would raise `ValueError`. -/
def pyFloat? (s : String) : Option PyFloat :=
  let l := pyStripList s.toList
  let sl : Bool × List Char :=
    match l with
    | '+' :: r => (false, r)
    | '-' :: r => (true, r)
    | r => (false, r)
  let low := sl.2.map Char.toLower
  if low = "inf".toList ∨ low = "infinity".toList then some .inf
  else if low = "nan".toList then some .nan
  else
    match parseFinite sl.2 with
    | some q => some (.finite (if sl.1 then -q else q))
    | none => none

/-! ## Progress rendering (`ProgressHook.__call__`, lines 94-106) -/

/-- `percent.replace('%', '')`: remove every percent sign. -/
def stripPercentChars (s : String) : String :=
  String.mk (s.toList.filter (fun c => c ≠ '%'))

/-- The 20-block bar: `filled = int(percent_float // 5)`,
`bar = FULL * filled + EMPTY * (20 - filled)` (negative repeat counts give
the empty string, as in Python). -/
def progressBar (q : ℚ) : String :=
  let filled : ℤ := Rat.floor (q / 5)
  String.mk (List.replicate filled.toNat '█') ++
    String.mk (List.replicate ((20 - filled).toNat) '░')

/-- The bar-style progress text built in the `try` branch. -/
def barText (q : ℚ) (percent speed eta : String) : String :=
  "📥 Downloading: [" ++ progressBar q ++ "] " ++ percent ++
    "\n⚡ Speed: " ++ speed ++ "\n⏱ ETA: " ++ eta

/-- The plain-text fallback built in the `except` branch. -/
def fallbackText (percent speed eta : String) : String :=
  "📥 Downloading...\n📊 Progress: " ++ percent ++
    "\n⚡ Speed: " ++ speed ++ "\n⏱ ETA: " ++ eta

/-- The body of the `try` block: parse the percent and build the bar text.
`float` raising (`none`), `int(inf // 5)` (`OverflowError`) and `int(nan)`
(`ValueError`) are the raising cases. -/
def renderTry (percent speed eta : String) : Except Unit String :=
  match pyFloat? (stripPercentChars percent) with
  | some (.finite q) => .ok (barText q percent speed eta)
  | some .inf => .error ()
  | some .nan => .error ()
  | none => .error ()

/-- The rendered progress text: the `try` result, or the fallback when the
`try` body raised.  Total by construction — the bare `except` catches every
exception the rendering can raise. -/
def renderProgress (percent speed eta : String) : String :=
  match renderTry percent speed eta with
  | .ok t => t
  | .error _ => fallbackText percent speed eta

/-! ## ProgressHook state machine (lines 76-140)

One hook instance is bound to one download.  A `downloading` event carries
the wall-clock time at which the callback runs (`time.time()`), the raw
percent/speed/eta strings from the library, whether the platform send/edit
call would succeed (`sendOk` — a raising call is caught and logged, line 127),
and the platform-assigned id a successful first send would return.  An
"emission" below is the send-or-edit call the hook issues; delivery failure
only affects whether `message_id` gets recorded. -/

/-- Mutable fields of a `ProgressHook` instance. -/
structure HookState where
  last_update : ℚ
  message_id : Option Nat
  last_progress_text : String
deriving DecidableEq

/-- Initial hook state (constructor, lines 77-83). -/
def initHook : HookState := ⟨0, none, ""⟩

/-- One `downloading` progress event as seen by `ProgressHook.__call__`. -/
structure DEvent where
  time : ℚ
  percent : String
  speed : String
  eta : String
  sendOk : Bool
  newMsgId : Nat
deriving DecidableEq

/-- `ProgressHook.__call__` on a `status == 'downloading'` event: the new
state and the attempted send/edit `(time, text)`, when one is issued. -/
def hookDownloading (s : HookState) (e : DEvent) : HookState × Option (ℚ × String) :=
  if e.time - s.last_update < 2 then (s, none)
  else
    let text := renderProgress e.percent e.speed e.eta
    if text = s.last_progress_text then
      ({ s with last_update := e.time }, none)
    else
      ({ last_update := e.time,
         message_id :=
           match s.message_id with
           | none => if e.sendOk then some e.newMsgId else none
           | some m => some m,
         last_progress_text := text }, some (e.time, text))

/-- `ProgressHook.__call__` on a `status == 'finished'` event: edit the
status message to the fixed completion text when one exists (lines 130-140).
State is unchanged either way. -/
def hookFinished (s : HookState) : HookState × Option String :=
  match s.message_id with
  | none => (s, none)
  | some _ => (s, some "✅ Download complete! Processing file...")

/-- Run the hook over a list of `downloading` events, collecting the
attempted emissions `(time, text)` in order. -/
def runHook : HookState → List DEvent → HookState × List (ℚ × String)
  | s, [] => (s, [])
  | s, e :: rest =>
    let p := hookDownloading s e
    let q := runHook p.1 rest
    (q.1, p.2.elim q.2 (fun x => x :: q.2))

/-- The relation claimed of consecutive emissions: at least 2 seconds apart
and with different rendered texts. -/
def emitRel (a b : ℚ × String) : Prop :=
  a.1 + 2 ≤ b.1 ∧ b.2 ≠ a.2

/-! ## Session table (`user_sessions`, lines 64-65) -/

/-- One per-user session: the submitted URL and the chosen format key. -/
structure Session where
  url : String
  format : Option String
deriving DecidableEq

/-- The process-wide `user_sessions` dict, keyed by Telegram user id. -/
def SessionTable := Nat → Option Session

/-- `del user_sessions[u]` guarded by `if u in user_sessions` — idempotent. -/
def removeSession (t : SessionTable) (u : Nat) : SessionTable :=
  fun v => if v = u then none else t v

/-! ## Configuration store (lines 27-62) -/

/-- `DEFAULT_CONFIG`: the one recognized key, backed by the
`REQUIRED_CHANNEL` environment value (a parameter of the model). -/
def DEFAULT_CONFIG (defaultChannel : String) : List (String × String) :=
  [("required_channel", defaultChannel)]

/-- The `bot_config.json` cell: absent, present but unreadable/unparsable,
or a parsed JSON object (modelled as an association list with the first
binding of a key authoritative, as in a Python dict). -/
inductive FileState
  | absent
  | invalid
  | valid (config : List (String × String))
deriving DecidableEq

/-- Python dict lookup `config[k]` / membership `k in config`. -/
def lookupKey (c : List (String × String)) (k : String) : Option String :=
  match c with
  | [] => none
  | kv :: rest => if kv.1 = k then some kv.2 else lookupKey rest k

/-- Python dict assignment `config[k] = v`: replace the binding, appending
when the key is absent. -/
def setKey (c : List (String × String)) (k v : String) : List (String × String) :=
  match c with
  | [] => [(k, v)]
  | kv :: rest => if kv.1 = k then (k, v) :: rest else kv :: setKey rest k v

/-- The backfill loop of `load_config` (lines 46-48): for each default key
missing from the parsed record, add the default binding. -/
def ensure_keys (defaultChannel : String) (c : List (String × String)) :
    List (String × String) :=
  (DEFAULT_CONFIG defaultChannel).foldl
    (fun acc kv => if lookupKey acc kv.1 = none then acc ++ [kv] else acc) c

/-- `save_config(config)`: overwrite the file; a raising write is logged and
swallowed, leaving the file as it was (`writeOk` is the oracle for whether
the write succeeds). -/
def save_config (c : List (String × String)) (fs : FileState) (writeOk : Bool) :
    FileState :=
  if writeOk then .valid c else fs

/-- `load_config()`: parse and backfill an existing file; substitute (without
persisting) the defaults when reading/parsing raises; create and persist the
defaults when the file is absent.  Returns the configuration and the
resulting file state. -/
def load_config (defaultChannel : String) (writeOk : Bool) (fs : FileState) :
    List (String × String) × FileState :=
  match fs with
  | .absent =>
    (DEFAULT_CONFIG defaultChannel,
     save_config (DEFAULT_CONFIG defaultChannel) .absent writeOk)
  | .invalid => (DEFAULT_CONFIG defaultChannel, .invalid)
  | .valid c => (ensure_keys defaultChannel c, .valid c)

/-! ## Message and button handlers (lines 275-318) -/

/-- The reply `handle_message` produces. -/
inductive Reply
  | invalidUrl
  | formatKeyboard
deriving DecidableEq

/-- `handle_message` (lines 275-296): strip the text, require a YouTube
substring, then create/replace the user's session with no format chosen and
offer the format keyboard. -/
def handle_message (t : SessionTable) (u : Nat) (text0 : String) :
    SessionTable × Reply :=
  let text := pyStrip text0
  if !(containsStr text "youtube.com" || containsStr text "youtu.be") then
    (t, .invalidUrl)
  else
    (fun v => if v = u then some { url := text, format := none } else t v,
     .formatKeyboard)

/-- `query.data.split('_')[1]` (line 304).  The router only dispatches data
matching `^format_`, so the split has at least two parts; the out-of-range
default is never reached for dispatched callbacks. -/
def extractFormatKey (data : String) : String :=
  ((splitChar '_' data.toList).map String.mk).getD 1 ""

/-- Outcome of `format_button`: the session-expired edit, or the
"Selected … Starting download..." edit plus a spawned
`process_download(user_id, url, format_key)` task. -/
inductive ButtonOutcome
  | sessionExpired
  | started (format_key : String) (url : String)
deriving DecidableEq

/-- `format_button` (lines 298-318). -/
def format_button (t : SessionTable) (u : Nat) (data : String) :
    SessionTable × ButtonOutcome :=
  let fk := extractFormatKey data
  match t u with
  | none => (t, .sessionExpired)
  | some sess =>
    (fun v => if v = u then some { sess with format := some fk } else t v,
     .started fk sess.url)

/-! ## Admin `/setchannel` command (lines 242-263) -/

/-- The reply `set_channel_command` produces. -/
inductive AdminReply
  | permissionDenied
  | usage
  | mustStartWithAt
  | channelSet (channel : String)
deriving DecidableEq

/-- `set_channel_command`: admin gate, argument checks, then
load-modify-save of the configuration.  `loadWriteOk`/`saveWriteOk` are the
oracles for the two file writes that can occur. -/
def set_channel_command (admins : List Nat) (u : Nat) (args : List String)
    (defaultChannel : String) (fs : FileState) (loadWriteOk saveWriteOk : Bool) :
    FileState × AdminReply :=
  if u ∉ admins then (fs, .permissionDenied)
  else
    match args with
    | [] => (fs, .usage)
    | a :: _ =>
      let channel := pyStrip a
      if !(pyStartsWith channel "@") then (fs, .mustStartWithAt)
      else
        let lr := load_config defaultChannel loadWriteOk fs
        let config2 := setKey lr.1 "required_channel" channel
        (save_config config2 lr.2 saveWriteOk, .channelSet channel)

/-! ## Download orchestrator (`process_download`, lines 320-404) -/

/-- What the media-library call produces: metadata plus the prepared
filename, or a `yt_dlp.DownloadError`, or any other exception (with its
textual detail). -/
inductive LibResult
  | ok (filename : String) (title : String)
  | downloadError
  | genericError (detail : String)
deriving DecidableEq

/-- The three outgoing message kinds of the extension dispatch. -/
inductive SendKind
  | audio
  | video
  | document
deriving DecidableEq

/-- The user-facing error message classified at lines 381-386. -/
inductive UserError
  | downloadFailed
  | genericFailure (detail : String)
deriving DecidableEq

/-- External collaborators of one `process_download` run: the library
outcome, the `os.path.exists` oracle, whether the file send succeeds, the
exception detail if it raises, and whether the error-message send succeeds
(its failure is logged and swallowed, lines 394-400). -/
structure DLEnv where
  lib : LibResult
  fileExists : String → Bool
  sendFileOk : Bool
  sendFailDetail : String
  sendErrorOk : Bool

/-- Observable outcome of one `process_download` run: the session table
after return, the dispatch branch taken (kind, filename, title) when the
library call succeeded, whether the file send succeeded, and the user-facing
error message attempted on a failure path. -/
structure DLResult where
  sessions : SessionTable
  dispatch : Option (SendKind × String × String)
  delivered : Bool
  errorNotice : Option UserError

/-- Lines 354-358: for the `mp3` format, prefer the `.mp3` sibling of the
prepared filename when it exists on disk. -/
def selectFilename (format_key filename : String) (exists? : String → Bool) :
    String :=
  if format_key = "mp3" then
    let m := mp3Sibling filename
    if exists? m then m else filename
  else filename

/-- Lines 360-379: choose the outgoing message kind by file extension. -/
def classify (filename : String) : SendKind :=
  if pyEndsWith filename ".mp3" then .audio
  else if pyEndsWith filename ".mp4" || pyEndsWith filename ".webm" ||
      pyEndsWith filename ".mkv" then .video
  else .document

/-- `process_download` (lines 320-404).  The `url` is passed to the library
and so is absorbed into `env.lib`; the session table is threaded
explicitly. -/
def process_download (t : SessionTable) (u : Nat) (_url format_key : String)
    (env : DLEnv) : DLResult :=
  match env.lib with
  | .ok filename title =>
    let f := selectFilename format_key filename env.fileExists
    if env.sendFileOk then
      { sessions := removeSession t u,
        dispatch := some (classify f, f, title),
        delivered := true,
        errorNotice := none }
    else
      { sessions := removeSession t u,
        dispatch := some (classify f, f, title),
        delivered := false,
        errorNotice := some (.genericFailure env.sendFailDetail) }
  | .downloadError =>
    { sessions := removeSession t u,
      dispatch := none,
      delivered := false,
      errorNotice := some .downloadFailed }
  | .genericError detail =>
    { sessions := removeSession t u,
      dispatch := none,
      delivered := false,
      errorNotice := some (.genericFailure detail) }

/-! ## Helper lemmas on the string primitives -/

theorem startsWithList_append (p r : List Char) :
    startsWithList p (p ++ r) = true := by
  induction p with
  | nil => rfl
  | cons a ps ih => simp [startsWithList, ih]

theorem startsWith_cons_ne {a b : Char} {p q l : List Char} (hab : a ≠ b)
    (hp : startsWithList (a :: p) l = true) :
    startsWithList (b :: q) l = false := by
  cases l with
  | nil => simp [startsWithList] at hp
  | cons c cs =>
    simp only [startsWithList] at hp ⊢
    by_cases hac : a = c
    · subst hac
      rw [if_neg (fun h => hab h.symm)]
    · rw [if_neg hac] at hp
      exact absurd hp (by simp)

theorem pyEndsWith_mp3Sibling (fn : String) :
    pyEndsWith (mp3Sibling fn) ".mp3" = true := by
  show startsWithList (".mp3".toList.reverse)
      ((dropAfterLastDot fn.toList ++ ".mp3".toList).reverse) = true
  rw [List.reverse_append]
  exact startsWithList_append _ _

theorem not_mp3_of_mp4 (f : String) (h : pyEndsWith f ".mp4" = true) :
    pyEndsWith f ".mp3" = false := by
  unfold pyEndsWith at h ⊢
  have h4 : ".mp4".toList.reverse = '4' :: ['p', 'm', '.'] := by decide
  have h3 : ".mp3".toList.reverse = '3' :: ['p', 'm', '.'] := by decide
  rw [h4] at h
  rw [h3]
  exact startsWith_cons_ne (by decide) h

theorem not_mp3_of_webm (f : String) (h : pyEndsWith f ".webm" = true) :
    pyEndsWith f ".mp3" = false := by
  unfold pyEndsWith at h ⊢
  have hw : ".webm".toList.reverse = 'm' :: ['b', 'e', 'w', '.'] := by decide
  have h3 : ".mp3".toList.reverse = '3' :: ['p', 'm', '.'] := by decide
  rw [hw] at h
  rw [h3]
  exact startsWith_cons_ne (by decide) h

theorem not_mp3_of_mkv (f : String) (h : pyEndsWith f ".mkv" = true) :
    pyEndsWith f ".mp3" = false := by
  unfold pyEndsWith at h ⊢
  have hk : ".mkv".toList.reverse = 'v' :: ['k', 'm', '.'] := by decide
  have h3 : ".mp3".toList.reverse = '3' :: ['p', 'm', '.'] := by decide
  rw [hk] at h
  rw [h3]
  exact startsWith_cons_ne (by decide) h

/-! ## C1: session always removed by `process_download` -/

/-- C1: every `process_download(user_id, url, format_key)` run — success,
library download failure, or any other exception — returns with no session
entry for `user_id` in the session table. -/
theorem process_download_clears_session
    (t : SessionTable) (u : Nat) (url fk : String) (env : DLEnv) :
    (process_download t u url fk env).sessions u = none := by
  cases h : env.lib with
  | ok fn title =>
    by_cases hs : env.sendFileOk <;>
      simp [process_download, h, hs, removeSession]
  | downloadError => simp [process_download, h, removeSession]
  | genericError detail => simp [process_download, h, removeSession]

/-! ## C3: mp3 sibling preferred and sent via the audio path -/

/-- C3: with `format_key = "mp3"`, when the `.mp3` sibling of the
library-reported filename exists on disk, the dispatched file is exactly
that sibling, its name ends in `.mp3`, and it goes through the audio
branch. -/
theorem mp3_sibling_sent_as_audio
    (t : SessionTable) (u : Nat) (url : String) (env : DLEnv)
    (fn title : String)
    (hlib : env.lib = .ok fn title)
    (hex : env.fileExists (mp3Sibling fn) = true)
    (hsend : env.sendFileOk = true) :
    (process_download t u url "mp3" env).dispatch
      = some (.audio, mp3Sibling fn, title) ∧
    pyEndsWith (mp3Sibling fn) ".mp3" = true := by
  have hsel : selectFilename "mp3" fn env.fileExists = mp3Sibling fn := by
    simp [selectFilename, hex]
  have hcls : classify (mp3Sibling fn) = .audio := by
    simp [classify, pyEndsWith_mp3Sibling]
  refine ⟨?_, pyEndsWith_mp3Sibling fn⟩
  simp [process_download, hlib, hsend, hsel, hcls]

/-- Witness for C3 at a concrete environment: library reports
`song.webm`, the sibling `song.mp3` exists, and the audio branch fires. -/
theorem mp3_sibling_sent_as_audio_witness :
    ((⟨.ok "song.webm" "t", fun s => s == "song.mp3", true, "d", true⟩ : DLEnv).lib
       = .ok "song.webm" "t" ∧
     (⟨.ok "song.webm" "t", fun s => s == "song.mp3", true, "d", true⟩ : DLEnv).fileExists
       (mp3Sibling "song.webm") = true) ∧
    (process_download (fun _ => none) 1 "u" "mp3"
        ⟨.ok "song.webm" "t", fun s => s == "song.mp3", true, "d", true⟩).dispatch
      = some (.audio, mp3Sibling "song.webm", "t") :=
  ⟨⟨rfl, by decide⟩,
   (mp3_sibling_sent_as_audio (fun _ => none) 1 "u" _ "song.webm" "t" rfl
      (by decide) rfl).1⟩

/-! ## C4: extension dispatch selects exactly one message kind -/

/-- C4: the orchestrator dispatches the output filename by extension —
`.mp3` through the audio branch, `.mp4`/`.webm`/`.mkv` through the video
branch, anything else through the document branch — and on a successful
library call the dispatched kind is exactly `classify` of the selected
filename. -/
theorem extension_dispatch_exclusive (f : String) :
    (pyEndsWith f ".mp3" = true → classify f = .audio) ∧
    ((pyEndsWith f ".mp4" || pyEndsWith f ".webm" || pyEndsWith f ".mkv") = true →
      classify f = .video) ∧
    (pyEndsWith f ".mp3" = false → pyEndsWith f ".mp4" = false →
      pyEndsWith f ".webm" = false → pyEndsWith f ".mkv" = false →
      classify f = .document) ∧
    ∀ (t : SessionTable) (u : Nat) (url fk fn title : String) (env : DLEnv),
      env.lib = .ok fn title →
      (process_download t u url fk env).dispatch
        = some (classify (selectFilename fk fn env.fileExists),
                selectFilename fk fn env.fileExists, title) := by
  refine ⟨fun h => by simp [classify, h], fun h => ?_, fun h3 h4 hw hk => ?_, ?_⟩
  · simp only [Bool.or_eq_true] at h
    rcases h with (h4 | hw) | hk
    · simp [classify, not_mp3_of_mp4 f h4, h4]
    · simp [classify, not_mp3_of_webm f hw, hw]
    · simp [classify, not_mp3_of_mkv f hk, hk]
  · simp [classify, h3, h4, hw, hk]
  · intro t u url fk fn title env hlib
    by_cases hs : env.sendFileOk <;> simp [process_download, hlib, hs]

/-- Witness for C4 at concrete filenames for each branch. -/
theorem extension_dispatch_exclusive_witness :
    (pyEndsWith "a.mp3" ".mp3" = true ∧ classify "a.mp3" = .audio) ∧
    ((pyEndsWith "a.webm" ".mp4" || pyEndsWith "a.webm" ".webm" ||
        pyEndsWith "a.webm" ".mkv") = true ∧ classify "a.webm" = .video) ∧
    (pyEndsWith "a.txt" ".mp3" = false ∧ classify "a.txt" = .document) ∧
    (process_download (fun _ => none) 1 "u" "best"
        ⟨.ok "a.mp4" "t", fun _ => false, true, "d", true⟩).dispatch
      = some (classify (selectFilename "best" "a.mp4" (fun _ => false)),
              selectFilename "best" "a.mp4" (fun _ => false), "t") :=
  ⟨⟨by decide, (extension_dispatch_exclusive "a.mp3").1 (by decide)⟩,
   ⟨by decide, (extension_dispatch_exclusive "a.webm").2.1 (by decide)⟩,
   ⟨by decide,
    (extension_dispatch_exclusive "a.txt").2.2.1 (by decide) (by decide)
      (by decide) (by decide)⟩,
   (extension_dispatch_exclusive "x").2.2.2 (fun _ => none) 1 "u" "best"
     "a.mp4" "t" _ rfl⟩

/-! ## Helper lemmas on `splitChar` and the config store -/

theorem splitChar_not_mem (sep : Char) (l : List Char) (h : sep ∉ l) :
    splitChar sep l = [l] := by
  induction l with
  | nil => rfl
  | cons c cs ih =>
    have hc : ¬ c = sep := fun he => h (by rw [he]; exact List.mem_cons_self _ _)
    have hcs : sep ∉ cs := fun hm => h (List.mem_cons_of_mem _ hm)
    simp [splitChar, ih hcs, hc]

theorem splitChar_append (sep : Char) (xs ys : List Char) (hx : sep ∉ xs) :
    splitChar sep (xs ++ sep :: ys) = xs :: splitChar sep ys := by
  induction xs with
  | nil => simp [splitChar]
  | cons c cs ih =>
    have hc : ¬ c = sep := fun he => hx (by rw [he]; exact List.mem_cons_self _ _)
    have hcs : sep ∉ cs := fun hm => hx (List.mem_cons_of_mem _ hm)
    simpa [splitChar, hc] using congrArg (fun r =>
      match r with
      | [] => [[c]]
      | h :: t => (c :: h) :: t) (ih hcs)

theorem extractFormatKey_format (fk : String) (h : '_' ∉ fk.toList) :
    extractFormatKey ("format_" ++ fk) = fk := by
  have hl : ("format_" ++ fk).toList = "format".toList ++ '_' :: fk.toList := by
    cases fk with
    | mk data => simp [String.toList]
  unfold extractFormatKey
  rw [hl, splitChar_append _ _ _ (by decide), splitChar_not_mem _ _ h]
  cases fk with
  | mk data => simp [List.getD, String.toList]

theorem lookupKey_append_single (c : List (String × String)) (k v : String)
    (h : lookupKey c k = none) : lookupKey (c ++ [(k, v)]) k = some v := by
  induction c with
  | nil => simp [lookupKey]
  | cons kv rest ih =>
    simp only [lookupKey, List.cons_append] at h ⊢
    by_cases hk : kv.1 = k
    · rw [if_pos hk] at h
      exact absurd h (by simp)
    · rw [if_neg hk] at h ⊢
      exact ih h

theorem lookupKey_setKey (c : List (String × String)) (k v : String) :
    lookupKey (setKey c k v) k = some v := by
  induction c with
  | nil => simp [setKey, lookupKey]
  | cons kv rest ih =>
    by_cases hk : kv.1 = k
    · simp [setKey, lookupKey, hk]
    · simp [setKey, lookupKey, hk, ih]

/-! ## C5: session round-trip and session-not-found abort -/

/-- C5: submitting a recognized URL then pressing a format button leaves the
session for that user holding exactly that URL and format and spawns the
download; pressing a format button with no session produces the
session-expired edit, leaves the table unchanged, and starts no download. -/
theorem session_put_set_format (u : Nat) :
    (∀ (t : SessionTable) (text fk : String),
      (containsStr (pyStrip text) "youtube.com" ||
        containsStr (pyStrip text) "youtu.be") = true →
      '_' ∉ fk.toList →
      (format_button (handle_message t u text).1 u ("format_" ++ fk)).1 u
        = some ⟨pyStrip text, some fk⟩ ∧
      (format_button (handle_message t u text).1 u ("format_" ++ fk)).2
        = .started fk (pyStrip text)) ∧
    (∀ (t : SessionTable) (data : String), t u = none →
      format_button t u data = (t, .sessionExpired)) := by
  constructor
  · intro t text fk hurl hfk
    simp [handle_message, hurl, format_button, extractFormatKey_format fk hfk]
  · intro t data h
    simp [format_button, h]

/-- Witness for C5: a concrete `youtu.be` URL with the `mp3` key round-trips
through `handle_message` and `format_button`, and a button press for an
absent user id aborts with the session-expired edit. -/
theorem session_put_set_format_witness :
    ((containsStr (pyStrip "https://youtu.be/abc123") "youtube.com" ||
        containsStr (pyStrip "https://youtu.be/abc123") "youtu.be") = true ∧
     '_' ∉ "mp3".toList ∧
     (format_button (handle_message (fun _ => none) 1 "https://youtu.be/abc123").1
        1 ("format_" ++ "mp3")).1 1
       = some ⟨pyStrip "https://youtu.be/abc123", some "mp3"⟩) ∧
    ((fun _ => none : SessionTable) 2 = none ∧
     format_button (fun _ => none) 2 "format_mp3"
       = ((fun _ => none), .sessionExpired)) :=
  ⟨⟨by decide, by decide,
    ((session_put_set_format 1).1 (fun _ => none) "https://youtu.be/abc123" "mp3"
       (by decide) (by decide)).1⟩,
   ⟨rfl, (session_put_set_format 2).2 (fun _ => none) "format_mp3" rfl⟩⟩

/-! ## C6: percent rendering never raises, falls back on parse failure -/

/-- C6: rendering the progress text is total — it is the `try` body wrapped
in `renderProgress`, whose `except` arm returns the plain-text fallback —
and for every percent string whose numeric parse fails (after removing the
percent signs) the result is exactly the fallback display. -/
theorem percent_parse_fallback (percent speed eta : String)
    (h : pyFloat? (stripPercentChars percent) = none) :
    renderProgress percent speed eta = fallbackText percent speed eta := by
  simp [renderProgress, renderTry, h]

/-- Witness for C6: the empty percent string fails to parse and degrades to
the fallback display. -/
theorem percent_parse_fallback_witness :
    pyFloat? (stripPercentChars "") = none ∧
    renderProgress "" "N/A" "N/A" = fallbackText "" "N/A" "N/A" :=
  ⟨by decide, percent_parse_fallback "" "N/A" "N/A" (by decide)⟩

/-! ## C7: configuration save/load round-trip -/

/-- C7: saving a configuration record (which, per the data model, carries
the `required_channel` key) with a successful file write and then loading
returns exactly the saved record: the backfill loop leaves a record whose
`required_channel` key is present untouched. -/
theorem config_save_load_roundtrip (d : String) (c : List (String × String))
    (fs : FileState) (w : Bool)
    (h : lookupKey c "required_channel" ≠ none) :
    (load_config d w (save_config c fs true)).1 = c := by
  simp [save_config, load_config, ensure_keys, DEFAULT_CONFIG, h]

/-- Witness for C7 at a concrete record with an extra (preserved) key. -/
theorem config_save_load_roundtrip_witness :
    lookupKey [("required_channel", "@c"), ("other", "x")] "required_channel"
      ≠ none ∧
    (load_config "@d" true
        (save_config [("required_channel", "@c"), ("other", "x")] .absent true)).1
      = [("required_channel", "@c"), ("other", "x")] :=
  ⟨by decide,
   config_save_load_roundtrip "@d" _ .absent true (by decide)⟩

/-! ## C8: `load_config` always backfills `required_channel` -/

/-- C8: whatever the file state — absent, unparsable, or a parsed record —
the configuration returned by `load_config` contains the `required_channel`
key, and a stored record missing the key gets the default value backfilled
for it. -/
theorem load_config_backfills_required_channel (d : String) (w : Bool) :
    (∀ fs : FileState,
      lookupKey (load_config d w fs).1 "required_channel" ≠ none) ∧
    (∀ c : List (String × String), lookupKey c "required_channel" = none →
      lookupKey (load_config d w (.valid c)).1 "required_channel" = some d) := by
  constructor
  · intro fs
    cases fs with
    | absent => simp [load_config, DEFAULT_CONFIG, lookupKey]
    | invalid => simp [load_config, DEFAULT_CONFIG, lookupKey]
    | valid c =>
      simp only [load_config, ensure_keys, DEFAULT_CONFIG, List.foldl]
      by_cases h : lookupKey c "required_channel" = none
      · rw [if_pos h, lookupKey_append_single c _ _ h]
        simp
      · rw [if_neg h]
        exact h
  · intro c h
    simp only [load_config, ensure_keys, DEFAULT_CONFIG, List.foldl]
    rw [if_pos h]
    exact lookupKey_append_single c _ _ h

/-- Witness for C8: an unparsable file yields a record with the key, and a
stored record lacking the key gets the default backfilled. -/
theorem load_config_backfills_required_channel_witness :
    lookupKey (load_config "@d" true .invalid).1 "required_channel" ≠ none ∧
    lookupKey [("other", "y")] "required_channel" = none ∧
    lookupKey (load_config "@d" true (.valid [("other", "y")])).1
      "required_channel" = some "@d" :=
  ⟨(load_config_backfills_required_channel "@d" true).1 .invalid,
   by decide,
   (load_config_backfills_required_channel "@d" true).2 [("other", "y")]
     (by decide)⟩

/-! ## C9: the `/setchannel` admin gate

The code strips the first argument (`context.args[0].strip()`, line 253)
before testing for a leading `@`, so an argument with surrounding whitespace
whose stripped form starts with `@` does mutate the configuration even
though the argument itself does not start with `@`.  The claim as stated is
therefore false at such an input; the amended gate condition is on the
stripped argument. -/

/-- C9 counterexample: for an admin sender with first argument `" @new"` —
which does not start with `@` — the claim says the stored configuration is
unchanged, but the code strips the argument and persists `@new`. -/
theorem set_channel_strip_counterexample :
    pyStartsWith " @new" "@" = false ∧
    (set_channel_command [7] 7 [" @new"] "@d"
        (.valid [("required_channel", "@old")]) true true).1
      ≠ .valid [("required_channel", "@old")] ∧
    (set_channel_command [7] 7 [" @new"] "@d"
        (.valid [("required_channel", "@old")]) true true).1
      = .valid [("required_channel", "@new")] := by
  refine ⟨by decide, ?_, by decide⟩
  decide

/-- C9 (amended): `/setchannel` mutates and persists the stored
configuration only when the sender is in the admin allow-list and a first
argument whose whitespace-stripped form starts with `@` is supplied; in
every other case the stored configuration is unchanged, and a non-admin
sender receives the fixed permission-denied message. -/
theorem set_channel_admin_gate (admins : List Nat) (u : Nat)
    (args : List String) (d : String) (fs : FileState) (lw sw : Bool) :
    (u ∉ admins →
      set_channel_command admins u args d fs lw sw = (fs, .permissionDenied)) ∧
    (¬ (u ∈ admins ∧ ∃ a rest, args = a :: rest ∧
          pyStartsWith (pyStrip a) "@" = true) →
      (set_channel_command admins u args d fs lw sw).1 = fs) ∧
    (∀ a rest, u ∈ admins → args = a :: rest →
      pyStartsWith (pyStrip a) "@" = true → sw = true →
      ∃ cfg, (set_channel_command admins u args d fs lw sw).1 = .valid cfg ∧
        lookupKey cfg "required_channel" = some (pyStrip a) ∧
        (set_channel_command admins u args d fs lw sw).2
          = .channelSet (pyStrip a)) := by
  refine ⟨fun h => by simp [set_channel_command, h], fun h => ?_, ?_⟩
  · by_cases hu : u ∈ admins
    · cases args with
      | nil => simp [set_channel_command, hu]
      | cons a rest =>
        by_cases hst : pyStartsWith (pyStrip a) "@" = true
        · exact absurd ⟨hu, a, rest, rfl, hst⟩ h
        · have hb : pyStartsWith (pyStrip a) "@" = false :=
            Bool.not_eq_true _ ▸ eq_false_of_ne_true hst
          simp [set_channel_command, hu, hb]
    · simp [set_channel_command, hu]
  · intro a rest hu hargs hst hsw
    subst hargs
    subst hsw
    refine ⟨setKey (load_config d lw fs).1 "required_channel" (pyStrip a),
      ?_, lookupKey_setKey _ _ _, ?_⟩ <;>
      simp [set_channel_command, hu, hst, save_config]

/-- Witness for C9 (amended) at concrete inputs: a non-admin is denied with
no state change, an admin with a non-`@` argument changes nothing, and an
admin with `@new` persists it. -/
theorem set_channel_admin_gate_witness :
    set_channel_command [7] 5 ["@x"] "@d" .invalid true true
      = (.invalid, .permissionDenied) ∧
    (set_channel_command [7] 7 ["foo"] "@d" .invalid true true).1 = .invalid ∧
    ∃ cfg, (set_channel_command [7] 7 ["@new"] "@d" .invalid true true).1
        = .valid cfg ∧
      lookupKey cfg "required_channel" = some (pyStrip "@new") ∧
      (set_channel_command [7] 7 ["@new"] "@d" .invalid true true).2
        = .channelSet (pyStrip "@new") :=
  ⟨(set_channel_admin_gate [7] 5 ["@x"] "@d" .invalid true true).1 (by decide),
   (set_channel_admin_gate [7] 7 ["foo"] "@d" .invalid true true).2.1
     (by rintro ⟨-, a, rest, heq, hst⟩
         injection heq with h1 h2
         subst h1
         exact absurd hst (by decide)),
   (set_channel_admin_gate [7] 7 ["@new"] "@d" .invalid true true).2.2
     "@new" [] (by decide) rfl (by decide) rfl⟩

/-! ## Hook step lemmas -/

theorem hookDownloading_gate (s : HookState) (e : DEvent)
    (h : e.time - s.last_update < 2) : hookDownloading s e = (s, none) := by
  simp [hookDownloading, h]

theorem hookDownloading_same (s : HookState) (e : DEvent)
    (h : ¬ e.time - s.last_update < 2)
    (ht : renderProgress e.percent e.speed e.eta = s.last_progress_text) :
    hookDownloading s e = ({ s with last_update := e.time }, none) := by
  simp [hookDownloading, h, ht]

theorem hookDownloading_emit (s : HookState) (e : DEvent)
    (h : ¬ e.time - s.last_update < 2)
    (ht : ¬ renderProgress e.percent e.speed e.eta = s.last_progress_text) :
    hookDownloading s e =
      ({ last_update := e.time,
         message_id :=
           match s.message_id with
           | none => if e.sendOk then some e.newMsgId else none
           | some m => some m,
         last_progress_text := renderProgress e.percent e.speed e.eta },
       some (e.time, renderProgress e.percent e.speed e.eta)) := by
  simp [hookDownloading, h, ht]

theorem runHook_cons (s : HookState) (e : DEvent) (rest : List DEvent) :
    (runHook s (e :: rest)).2 =
      ((hookDownloading s e).2).elim
        (runHook (hookDownloading s e).1 rest).2
        (fun x => x :: (runHook (hookDownloading s e).1 rest).2) := by
  simp [runHook]

theorem data_append_ne (a b : String) (h : a.data ≠ []) : (a ++ b).data ≠ [] := by
  rw [String.data_append]
  intro hc
  exact h (List.append_eq_nil.mp hc).1

theorem append_ne_empty (a b : String) (h : a.data ≠ []) : a ++ b ≠ "" := by
  intro hc
  have hd := congrArg String.data hc
  rw [String.data_append, show ("" : String).data = [] from rfl] at hd
  exact h (List.append_eq_nil.mp hd).1

theorem barText_ne_empty (q : ℚ) (p s e : String) : barText q p s e ≠ "" := by
  unfold barText
  exact append_ne_empty _ _ (data_append_ne _ _ (data_append_ne _ _
    (data_append_ne _ _ (data_append_ne _ _ (data_append_ne _ _
      (data_append_ne _ _ (by decide)))))))

theorem fallbackText_ne_empty (p s e : String) : fallbackText p s e ≠ "" := by
  unfold fallbackText
  exact append_ne_empty _ _ (data_append_ne _ _ (data_append_ne _ _
    (data_append_ne _ _ (data_append_ne _ _ (by decide)))))

/-- The rendered progress text is never the empty string (both the bar text
and the fallback begin with a fixed literal). -/
theorem renderProgress_ne_empty (p s e : String) : renderProgress p s e ≠ "" := by
  unfold renderProgress renderTry
  cases hp : pyFloat? (stripPercentChars p) with
  | none => exact fallbackText_ne_empty p s e
  | some v =>
    cases v with
    | finite q => exact barText_ne_empty q p s e
    | inf => exact fallbackText_ne_empty p s e
    | nan => exact fallbackText_ne_empty p s e

/-- Induction invariant for the emissions of a hook run: the first emission
is at least 2 seconds after the state's recorded timestamp and differs from
the state's recorded text, and consecutive emissions satisfy `emitRel`.
No assumption on the event times is needed — the gate itself only ever
advances `last_update` to a time at least 2 seconds later. -/
theorem runHook_inv (l : List DEvent) : ∀ s : HookState,
    (∀ x, (runHook s l).2.head? = some x →
      s.last_update + 2 ≤ x.1 ∧ x.2 ≠ s.last_progress_text) ∧
    List.Chain' emitRel (runHook s l).2 := by
  induction l with
  | nil =>
    intro s
    exact ⟨fun x hx => by simp [runHook] at hx, by simp [runHook]⟩
  | cons e rest ih =>
    intro s
    by_cases hgate : e.time - s.last_update < 2
    · have hrun : (runHook s (e :: rest)).2 = (runHook s rest).2 := by
        rw [runHook_cons, hookDownloading_gate s e hgate]
        rfl
      rw [hrun]
      exact ih s
    · by_cases hsame : renderProgress e.percent e.speed e.eta
          = s.last_progress_text
      · have hrun : (runHook s (e :: rest)).2
            = (runHook { s with last_update := e.time } rest).2 := by
          rw [runHook_cons, hookDownloading_same s e hgate hsame]
          rfl
        rw [hrun]
        refine ⟨fun x hx => ?_, (ih _).2⟩
        have hx' := (ih { s with last_update := e.time }).1 x hx
        refine ⟨?_, by simpa using hx'.2⟩
        have h2 : s.last_update + 2 ≤ e.time := by linarith
        have h3 : e.time + 2 ≤ x.1 := by simpa using hx'.1
        linarith
      · have hrun : (runHook s (e :: rest)).2
            = (e.time, renderProgress e.percent e.speed e.eta) ::
              (runHook (hookDownloading s e).1 rest).2 := by
          rw [runHook_cons, hookDownloading_emit s e hgate hsame]
          rfl
        have hs1u : (hookDownloading s e).1.last_update = e.time := by
          rw [hookDownloading_emit s e hgate hsame]
        have hs1t : (hookDownloading s e).1.last_progress_text
            = renderProgress e.percent e.speed e.eta := by
          rw [hookDownloading_emit s e hgate hsame]
        rw [hrun]
        constructor
        · intro x hx
          simp only [List.head?_cons, Option.some.injEq] at hx
          subst hx
          exact ⟨by linarith, hsame⟩
        · rw [List.chain'_cons']
          refine ⟨fun y hy => ?_, (ih _).2⟩
          have hy' := (ih (hookDownloading s e).1).1 y (Option.mem_def.mp hy)
          refine ⟨?_, ?_⟩
          · rw [hs1u] at hy'
            exact hy'.1
          · rw [hs1t] at hy'
            exact hy'.2

/-! ## C2: emissions are 2-second-spaced and pairwise distinct -/

/-- C2: over any sequence of `downloading` events delivered to one hook
instance, every two consecutive send/edit calls it issues are at least 2
seconds apart, and no two consecutive calls carry the same rendered text.
(An emission is the send-or-edit call the hook issues; a platform failure of
that call is caught, logged, and does not alter the rate-limit state.) -/
theorem progress_emissions_spaced_and_distinct (l : List DEvent) :
    List.Chain' emitRel (runHook initHook l).2 :=
  (runHook_inv l initHook).2

/-! ## C10: the rate-limit timestamp advances even without an emission -/

/-- C10: whenever a `downloading` event arrives at least 2 seconds after the
recorded timestamp, `last_update` is set to the event time even when no
message is sent or edited; consequently, in the concrete three-event trace
below, the third event carries new text and arrives 4 (> 2) seconds after
the only emitted message, yet is suppressed — the run emits exactly one
message. -/
theorem timestamp_advances_without_emission :
    (∀ (s : HookState) (e : DEvent), 2 ≤ e.time - s.last_update →
      (hookDownloading s e).1.last_update = e.time) ∧
    ((runHook initHook
        [⟨2, "10%", "1MiB/s", "00:10", true, 1⟩,
         ⟨5, "10%", "1MiB/s", "00:10", true, 2⟩,
         ⟨6, "50%", "1MiB/s", "00:05", true, 3⟩]).2
      = [(2, renderProgress "10%" "1MiB/s" "00:10")] ∧
     (6 : ℚ) - 2 > 2) := by
  refine ⟨fun s e h => ?_, ?_, by norm_num⟩
  · have hn : ¬ e.time - s.last_update < 2 := not_lt.mpr h
    by_cases ht : renderProgress e.percent e.speed e.eta = s.last_progress_text
    · rw [hookDownloading_same s e hn ht]
    · rw [hookDownloading_emit s e hn ht]
  · have g1 : ¬ ((⟨2, "10%", "1MiB/s", "00:10", true, 1⟩ : DEvent).time
        - initHook.last_update < 2) := by
      norm_num [initHook]
    have t1 : ¬ renderProgress "10%" "1MiB/s" "00:10"
        = initHook.last_progress_text := by
      simpa [initHook] using renderProgress_ne_empty "10%" "1MiB/s" "00:10"
    have h1 : hookDownloading initHook ⟨2, "10%", "1MiB/s", "00:10", true, 1⟩
        = (⟨2, some 1, renderProgress "10%" "1MiB/s" "00:10"⟩,
           some (2, renderProgress "10%" "1MiB/s" "00:10")) := by
      rw [hookDownloading_emit _ _ g1 t1]
      rfl
    have g2 : ¬ ((⟨5, "10%", "1MiB/s", "00:10", true, 2⟩ : DEvent).time
        - (⟨2, some 1, renderProgress "10%" "1MiB/s" "00:10"⟩ : HookState).last_update
          < 2) := by
      norm_num
    have h2 : hookDownloading
        ⟨2, some 1, renderProgress "10%" "1MiB/s" "00:10"⟩
        ⟨5, "10%", "1MiB/s", "00:10", true, 2⟩
        = (⟨5, some 1, renderProgress "10%" "1MiB/s" "00:10"⟩, none) := by
      rw [hookDownloading_same _ _ g2 rfl]
    have h3 : hookDownloading
        ⟨5, some 1, renderProgress "10%" "1MiB/s" "00:10"⟩
        ⟨6, "50%", "1MiB/s", "00:05", true, 3⟩
        = (⟨5, some 1, renderProgress "10%" "1MiB/s" "00:10"⟩, none) :=
      hookDownloading_gate _ _ (by norm_num)
    simp [runHook, h1, h2, h3]

/-- Witness for C10 at a concrete state and event. -/
theorem timestamp_advances_without_emission_witness :
    2 ≤ (⟨5, "10%", "x", "y", true, 1⟩ : DEvent).time - initHook.last_update ∧
    (hookDownloading initHook ⟨5, "10%", "x", "y", true, 1⟩).1.last_update = 5 :=
  ⟨by norm_num [initHook],
   timestamp_advances_without_emission.1 initHook
     ⟨5, "10%", "x", "y", true, 1⟩ (by norm_num [initHook])⟩

end YTBot
